import Mathlib

/-!
Verification of the L-system core of `lsystem.py`: the grammar rewriter
(`LSystem.getFinalString`), the 2D turtle interpreter (`LSystem.getSegments`
with its rotation cache `getKthRotatedUnitVector`), and the 3D turtle
interpreter (`LSystem3D.getSegments`).  Python floats are idealised as real
numbers; Python exceptions (`KeyError` from a missing rule, `IndexError` from
popping an empty bracket stack) are modelled by `Option`, with `none` meaning
the call raises instead of returning.
-/

set_option maxRecDepth 100000
set_option maxHeartbeats 1000000

namespace LSysVerify

/-- Class attribute `forwardDrawSymbols = ('F', 'G')`, shared by `LSystem`
and `LSystem3D`. -/
def forwardDrawSymbols : List Char := ['F', 'G']

/-- Class attribute `forwardJumpSymbols = ('f', 'g')`. -/
def forwardJumpSymbols : List Char := ['f', 'g']

/-- The constructor data of the Python `LSystem` class: variables, constants,
rule mapping (a `dict`), turn angle, axiom and initial heading. -/
structure LSystem where
  vars : List Char
  consts : List Char
  rules : List (Char × List Char)
  angle : ℝ
  initialString : List Char
  initialDirection : ℝ × ℝ

/-- One symbol of the rewriting round in `getFinalString`:
`if symbol in self.variables: nextString += self.rules[symbol]` — a variable
with no entry in `rules` raises `KeyError` (modelled as `none`); any other
symbol is appended unchanged. -/
def rewriteSymbol (L : LSystem) (c : Char) : Option (List Char) :=
  if c ∈ L.vars then L.rules.lookup c
  else some [c]

/-- The inner loop of `getFinalString`: build `nextString` by scanning
`currentString` left to right, appending each symbol's replacement. -/
def rewriteOnce (L : LSystem) (s : List Char) : Option (List Char) :=
  s.foldlM (fun acc c => (rewriteSymbol L c).map (acc ++ ·)) []

/-- `LSystem.getFinalString(iter)`: starting from the axiom, apply `iter`
rewriting rounds (`for _ in range(iter)`). -/
def getFinalString (L : LSystem) (iter : ℕ) : Option (List Char) :=
  (List.range iter).foldlM (fun cur _ => rewriteOnce L cur) L.initialString

/-- Specification-shaped description of one round of parallel rewriting:
every symbol of the input is rewritten independently against the input as it
was at the start of the round, and the results are concatenated in order. -/
def parallelRound (L : LSystem) : List Char → Option (List Char)
  | [] => some []
  | c :: cs => (rewriteSymbol L c).bind fun r => (parallelRound L cs).map (r ++ ·)

/-- A grammar whose declared variable `A` has no entry in the rule mapping;
used to exercise the `KeyError` path of `getFinalString`. -/
def unruledVariableSystem : LSystem :=
  { vars := ['A']
    consts := []
    rules := []
    angle := 0
    initialString := ['A']
    initialDirection := (1, 0) }

lemma rewriteOnce_acc (L : LSystem) :
    ∀ (cs acc : List Char),
      cs.foldlM (fun a c => (rewriteSymbol L c).map (a ++ ·)) acc
        = (parallelRound L cs).map (acc ++ ·) := by
  intro cs
  induction cs with
  | nil => intro acc; simp [parallelRound]
  | cons c cs ih =>
    intro acc
    cases h : rewriteSymbol L c with
    | none => simp [List.foldlM_cons, parallelRound, h]
    | some r =>
      simp only [List.foldlM_cons, parallelRound, h, Option.map_some', Option.some_bind,
        Option.bind_eq_bind, Option.bind_some]
      rw [ih (acc ++ r)]
      cases parallelRound L cs <;> simp [List.append_assoc]

lemma rewriteOnce_eq_parallelRound (L : LSystem) (s : List Char) :
    rewriteOnce L s = parallelRound L s := by
  have h := rewriteOnce_acc L s []
  simpa [rewriteOnce] using h

lemma getFinalString_succ (L : LSystem) (n : ℕ) :
    getFinalString L (n + 1) = (getFinalString L n).bind (rewriteOnce L) := by
  unfold getFinalString
  rw [show n + 1 = n.succ from rfl, List.range_succ, List.foldlM_append]
  cases (List.range n).foldlM (fun cur _ => rewriteOnce L cur) L.initialString <;>
    simp [List.foldlM]

lemma rewriteOnce_none_of_unruled (L : LSystem) :
    ∀ (cs : List Char), (∃ c, c ∈ cs ∧ c ∈ L.vars ∧ L.rules.lookup c = none) →
      rewriteOnce L cs = none := by
  have key : ∀ (cs acc : List Char), (∃ c, c ∈ cs ∧ c ∈ L.vars ∧ L.rules.lookup c = none) →
      cs.foldlM (fun a c => (rewriteSymbol L c).map (a ++ ·)) acc = none := by
    intro cs
    induction cs with
    | nil => intro acc h; exact absurd h.choose_spec.1 (List.not_mem_nil _)
    | cons c cs ih =>
      intro acc h
      obtain ⟨x, hx, hxv, hxr⟩ := h
      rcases List.mem_cons.mp hx with rfl | hx'
      · simp [List.foldlM_cons, rewriteSymbol, hxv, hxr]
      · cases hrc : rewriteSymbol L c with
        | none => simp [List.foldlM_cons, hrc]
        | some r =>
          simp only [List.foldlM_cons, hrc, Option.map_some', Option.some_bind]
          exact ih _ ⟨x, hx', hxv, hxr⟩
  intro cs h
  exact key cs [] h

/-- Claim C8: for every grammar, expansion with `iterations = 0` returns the
axiom (initial string) unchanged. -/
theorem claimC8 (L : LSystem) : getFinalString L 0 = some L.initialString := rfl

/-- Claim C4: expansion is compositional — `getFinalString (n+1)` is one more
parallel rewriting round applied to `getFinalString n`, and one round rewrites
every symbol against the string as it existed at the start of the round
(`rewriteOnce` coincides with the independent-per-symbol `parallelRound`). -/
theorem claimC4 :
    (∀ (L : LSystem) (n : ℕ),
      getFinalString L (n + 1) = (getFinalString L n).bind (rewriteOnce L)) ∧
    (∀ (L : LSystem) (s : List Char), rewriteOnce L s = parallelRound L s) :=
  ⟨getFinalString_succ, rewriteOnce_eq_parallelRound⟩

/-- Claim C1, counterexample: on the grammar whose variable `A` has no rule,
one round of expansion from the axiom `"A"` raises `KeyError` (returns
`none`); the symbol is *not* appended unchanged, and expansion does *not*
complete. -/
theorem claimC1_counterexample :
    'A' ∈ unruledVariableSystem.vars ∧
    unruledVariableSystem.rules.lookup 'A' = none ∧
    getFinalString unruledVariableSystem 1 = none := by
  refine ⟨by decide, by decide, ?_⟩
  decide

/-- Claim C1, amended: a symbol that is in the variables set but has no entry
in the rule mapping makes expansion fail (`KeyError`, modelled as `none`)
rather than passing through; only symbols *outside* the variables set are
passed through unchanged. -/
theorem claimC1 :
    (∀ (L : LSystem) (c : Char), c ∈ L.vars → L.rules.lookup c = none →
      rewriteSymbol L c = none) ∧
    (∀ (L : LSystem) (c : Char), c ∉ L.vars → rewriteSymbol L c = some [c]) ∧
    (∀ (L : LSystem) (s : List Char),
      (∃ c, c ∈ s ∧ c ∈ L.vars ∧ L.rules.lookup c = none) →
      rewriteOnce L s = none) := by
  refine ⟨?_, ?_, rewriteOnce_none_of_unruled⟩
  · intro L c hv hr
    simp [rewriteSymbol, hv, hr]
  · intro L c hv
    simp [rewriteSymbol, hv]

/-- Witness for the amended C1 at the concrete unruled grammar. -/
theorem claimC1_witness :
    ('A' ∈ unruledVariableSystem.vars ∧
      unruledVariableSystem.rules.lookup 'A' = none ∧
      rewriteSymbol unruledVariableSystem 'A' = none) ∧
    ('+' ∉ unruledVariableSystem.vars ∧
      rewriteSymbol unruledVariableSystem '+' = some ['+']) ∧
    ((∃ c, c ∈ ['A'] ∧ c ∈ unruledVariableSystem.vars ∧
        unruledVariableSystem.rules.lookup c = none) ∧
      rewriteOnce unruledVariableSystem ['A'] = none) :=
  ⟨⟨by decide, by decide, claimC1.1 unruledVariableSystem 'A' (by decide) (by decide)⟩,
   ⟨by decide, claimC1.2.1 unruledVariableSystem '+' (by decide)⟩,
   ⟨⟨'A', by decide, by decide, by decide⟩,
    claimC1.2.2 unruledVariableSystem ['A'] ⟨'A', by decide, by decide, by decide⟩⟩⟩

/-- `getKthRotatedUnitVector`: the initial heading rotated by `angle * k`
radians.  The Python version memoises results in `rotatedVectors`, seeded with
`{0 : initialDirection}`; as a function of `k` it is pure, so the cache is
modelled by the value it stores: the seed at `k = 0` and the closed rotation
formula elsewhere. -/
noncomputable def getKthRotatedUnitVector (L : LSystem) (k : ℤ) : ℝ × ℝ :=
  if k = 0 then L.initialDirection
  else
    (Real.cos (L.angle * k) * L.initialDirection.1 -
       Real.sin (L.angle * k) * L.initialDirection.2,
     Real.sin (L.angle * k) * L.initialDirection.1 +
       Real.cos (L.angle * k) * L.initialDirection.2)

/-- The loop state of `LSystem.getSegments`: current point, current direction,
rotation index, the bracket stack, and the segments emitted so far. -/
structure T2State where
  pos : ℝ × ℝ
  dir : ℝ × ℝ
  rotIdx : ℤ
  stack : List ((ℝ × ℝ) × (ℝ × ℝ) × ℤ)
  segs : List ((ℝ × ℝ) × (ℝ × ℝ))

/-- One iteration of the `for symbol in finalString` loop of
`LSystem.getSegments`: the forward-draw `if` runs first, then the
`if`/`elif` chain for jump, `+`, `-`, `[`, `]`.  Popping an empty stack
raises `IndexError`, modelled as `none`. -/
noncomputable def step2D (L : LSystem) (st : T2State) (c : Char) : Option T2State :=
  let st1 : T2State :=
    if c ∈ forwardDrawSymbols then
      { st with pos := st.pos + st.dir, segs := st.segs ++ [(st.pos, st.pos + st.dir)] }
    else st
  if c ∈ forwardJumpSymbols then
    some { st1 with pos := st1.pos + st1.dir }
  else if c = '+' then
    some { st1 with rotIdx := st1.rotIdx + 1,
                    dir := getKthRotatedUnitVector L (st1.rotIdx + 1) }
  else if c = '-' then
    some { st1 with rotIdx := st1.rotIdx - 1,
                    dir := getKthRotatedUnitVector L (st1.rotIdx - 1) }
  else if c = '[' then
    some { st1 with stack := (st1.pos, st1.dir, st1.rotIdx) :: st1.stack }
  else if c = ']' then
    match st1.stack with
    | [] => none
    | (p, dr, k) :: rest =>
      some { st1 with pos := p, dir := dr, rotIdx := k, stack := rest }
  else some st1

/-- The `for` loop of `LSystem.getSegments`, symbol by symbol; an exception
anywhere aborts the whole call. -/
noncomputable def trace2D (L : LSystem) : List Char → T2State → Option T2State
  | [], st => some st
  | c :: cs, st => (step2D L st c).bind fun st' => trace2D L cs st'

/-- The state `LSystem.getSegments` starts from: the origin, the initial
direction, rotation index 0, an empty stack and no segments. -/
def initState2D (L : LSystem) : T2State :=
  ⟨(0, 0), L.initialDirection, 0, [], []⟩

/-- `LSystem.getSegments(finalString)`: run the turtle loop from the initial
state and return the accumulated segments (the stack is discarded). -/
noncomputable def getSegments (L : LSystem) (s : List Char) :
    Option (List ((ℝ × ℝ) × (ℝ × ℝ))) :=
  (trace2D L s (initState2D L)).map T2State.segs

/-- `noPrematureClose cs d = true` iff scanning `cs` with `d` saved states
already on the stack never pops an empty stack: every `]` is matched by a
prior unmatched `[` or by one of the `d` outer entries. -/
def noPrematureClose : List Char → ℕ → Bool
  | [], _ => true
  | c :: cs, d =>
    if c = '[' then noPrematureClose cs (d + 1)
    else if c = ']' then
      if d = 0 then false else noPrematureClose cs (d - 1)
    else noPrematureClose cs d

/-- The bracket depth after scanning `cs` starting at depth `d`. -/
def finalDepth : List Char → ℕ → ℕ
  | [], d => d
  | c :: cs, d =>
    if c = '[' then finalDepth cs (d + 1)
    else if c = ']' then finalDepth cs (d - 1)
    else finalDepth cs d

/-- Occurrences of the character `a` in a list. -/
def countCh (a : Char) : List Char → ℕ
  | [] => 0
  | c :: cs => (if c = a then 1 else 0) + countCh a cs

/-- Number of forward-draw symbols (`F` or `G`) in a string. -/
def drawCount : List Char → ℕ
  | [] => 0
  | c :: cs => (if c ∈ forwardDrawSymbols then 1 else 0) + drawCount cs

/-- `cs` with every balanced bracketed substring deleted: brackets are
dropped and ordinary characters survive only at bracket depth 0. -/
def stripBracketed : List Char → ℕ → List Char
  | [], _ => []
  | c :: cs, d =>
    if c = '[' then stripBracketed cs (d + 1)
    else if c = ']' then stripBracketed cs (d - 1)
    else if d = 0 then c :: stripBracketed cs 0
    else stripBracketed cs d

/-- The pos/dir/rotIdx update performed by `step2D` on a non-bracket symbol;
it neither touches the stack nor depends on it. -/
noncomputable def plainUpd (L : LSystem) (c : Char) :
    (ℝ × ℝ) × (ℝ × ℝ) × ℤ → (ℝ × ℝ) × (ℝ × ℝ) × ℤ := fun pdk =>
  let p1 := if c ∈ forwardDrawSymbols then pdk.1 + pdk.2.1 else pdk.1
  if c ∈ forwardJumpSymbols then (p1 + pdk.2.1, pdk.2.1, pdk.2.2)
  else if c = '+' then
    (p1, getKthRotatedUnitVector L (pdk.2.2 + 1), pdk.2.2 + 1)
  else if c = '-' then
    (p1, getKthRotatedUnitVector L (pdk.2.2 - 1), pdk.2.2 - 1)
  else (p1, pdk.2.1, pdk.2.2)

lemma step2D_lbrack (L : LSystem) (st : T2State) :
    step2D L st '[' =
      some { st with stack := (st.pos, st.dir, st.rotIdx) :: st.stack } := rfl

lemma step2D_rbrack_nil (L : LSystem) (st : T2State) (h : st.stack = []) :
    step2D L st ']' = none := by
  obtain ⟨p, d, k, stk, sg⟩ := st
  simp only at h
  subst h
  rfl

lemma step2D_rbrack_cons (L : LSystem) (st : T2State) (p : ℝ × ℝ) (dr : ℝ × ℝ)
    (k : ℤ) (rest : List ((ℝ × ℝ) × (ℝ × ℝ) × ℤ))
    (h : st.stack = (p, dr, k) :: rest) :
    step2D L st ']' =
      some { st with pos := p, dir := dr, rotIdx := k, stack := rest } := by
  obtain ⟨p0, d0, k0, stk, sg⟩ := st
  simp only at h
  subst h
  rfl

lemma step2D_plain (L : LSystem) (st : T2State) (c : Char)
    (h1 : c ≠ '[') (h2 : c ≠ ']') :
    ∃ sg, step2D L st c =
      some { pos := (plainUpd L c (st.pos, st.dir, st.rotIdx)).1,
             dir := (plainUpd L c (st.pos, st.dir, st.rotIdx)).2.1,
             rotIdx := (plainUpd L c (st.pos, st.dir, st.rotIdx)).2.2,
             stack := st.stack,
             segs := st.segs ++ sg } ∧
      sg.length = (if c ∈ forwardDrawSymbols then 1 else 0) := by
  refine ⟨if c ∈ forwardDrawSymbols then [(st.pos, st.pos + st.dir)] else [], ?_, ?_⟩
  · by_cases hd : c ∈ forwardDrawSymbols <;>
      by_cases hj : c ∈ forwardJumpSymbols <;>
        by_cases hp : c = '+' <;>
          by_cases hm : c = '-' <;>
            simp_all [step2D, plainUpd]
  · by_cases hd : c ∈ forwardDrawSymbols <;> simp [hd]

lemma trace2D_nil (L : LSystem) (st : T2State) : trace2D L [] st = some st := rfl

lemma trace2D_cons (L : LSystem) (c : Char) (cs : List Char) (st : T2State) :
    trace2D L (c :: cs) st = (step2D L st c).bind fun st' => trace2D L cs st' := rfl

/-- The trace succeeds exactly when no `]` pops an empty stack. -/
lemma trace2D_isSome (L : LSystem) :
    ∀ (cs : List Char) (st : T2State),
      (trace2D L cs st).isSome = noPrematureClose cs st.stack.length := by
  intro cs
  induction cs with
  | nil => intro st; rfl
  | cons c cs ih =>
    intro st
    by_cases hl : c = '['
    · subst hl
      rw [trace2D_cons, step2D_lbrack]
      simpa [noPrematureClose] using ih _
    · by_cases hr : c = ']'
      · subst hr
        cases hstk : st.stack with
        | nil =>
          rw [trace2D_cons, step2D_rbrack_nil L st hstk]
          simp [noPrematureClose, hstk]
        | cons top rest =>
          obtain ⟨p, dr, k⟩ := top
          rw [trace2D_cons, step2D_rbrack_cons L st p dr k rest hstk]
          simpa [noPrematureClose, hstk] using ih _
      · obtain ⟨sg, hstep, _⟩ := step2D_plain L st c hl hr
        rw [trace2D_cons, hstep]
        simpa [noPrematureClose, hl, hr] using ih _

/-- The stack depth after a successful trace is the bracket depth of the
input. -/
lemma trace2D_stackLen (L : LSystem) :
    ∀ (cs : List Char) (st out : T2State), trace2D L cs st = some out →
      out.stack.length = finalDepth cs st.stack.length := by
  intro cs
  induction cs with
  | nil =>
    intro st out h
    rw [trace2D_nil] at h
    cases h
    rfl
  | cons c cs ih =>
    intro st out h
    by_cases hl : c = '['
    · subst hl
      rw [trace2D_cons, step2D_lbrack, Option.some_bind] at h
      simpa [finalDepth] using ih _ _ h
    · by_cases hr : c = ']'
      · subst hr
        cases hstk : st.stack with
        | nil =>
          rw [trace2D_cons, step2D_rbrack_nil L st hstk] at h
          cases h
        | cons top rest =>
          obtain ⟨p, dr, k⟩ := top
          rw [trace2D_cons, step2D_rbrack_cons L st p dr k rest hstk,
            Option.some_bind] at h
          simpa [finalDepth, hstk] using ih _ _ h
      · obtain ⟨sg, hstep, _⟩ := step2D_plain L st c hl hr
        rw [trace2D_cons, hstep, Option.some_bind] at h
        simpa [finalDepth, hl, hr] using ih _ _ h

/-- Segments are append-only, and a successful trace emits exactly one
segment per forward-draw symbol. -/
lemma trace2D_segs (L : LSystem) :
    ∀ (cs : List Char) (st out : T2State), trace2D L cs st = some out →
      ∃ t, out.segs = st.segs ++ t ∧ t.length = drawCount cs := by
  intro cs
  induction cs with
  | nil =>
    intro st out h
    rw [trace2D_nil] at h
    cases h
    exact ⟨[], by simp, by simp [drawCount]⟩
  | cons c cs ih =>
    intro st out h
    by_cases hl : c = '['
    · subst hl
      rw [trace2D_cons, step2D_lbrack, Option.some_bind] at h
      obtain ⟨t, ht, hlen⟩ := ih _ _ h
      exact ⟨t, ht, by simpa [drawCount, forwardDrawSymbols] using hlen⟩
    · by_cases hr : c = ']'
      · subst hr
        cases hstk : st.stack with
        | nil =>
          rw [trace2D_cons, step2D_rbrack_nil L st hstk] at h
          cases h
        | cons top rest =>
          obtain ⟨p, dr, k⟩ := top
          rw [trace2D_cons, step2D_rbrack_cons L st p dr k rest hstk,
            Option.some_bind] at h
          obtain ⟨t, ht, hlen⟩ := ih _ _ h
          exact ⟨t, ht, by simpa [drawCount, forwardDrawSymbols] using hlen⟩
      · obtain ⟨sg, hstep, hsg⟩ := step2D_plain L st c hl hr
        rw [trace2D_cons, hstep, Option.some_bind] at h
        obtain ⟨t, ht, hlen⟩ := ih _ _ h
        refine ⟨sg ++ t, by simp [ht, List.append_assoc], ?_⟩
        simp [drawCount, hsg, hlen, hl, hr]

/-- Scanning without premature closes relates the final depth to the bracket
counts. -/
lemma finalDepth_count :
    ∀ (cs : List Char) (d : ℕ), noPrematureClose cs d = true →
      finalDepth cs d + countCh ']' cs = d + countCh '[' cs := by
  intro cs
  induction cs with
  | nil => intro d _; simp [finalDepth, countCh]
  | cons c cs ih =>
    intro d h
    by_cases hl : c = '['
    · subst hl
      simp only [noPrematureClose, if_true, reduceIte] at h
      have := ih (d + 1) (by simpa using h)
      simp [finalDepth, countCh]
      omega
    · by_cases hr : c = ']'
      · subst hr
        cases d with
        | zero => simp [noPrematureClose] at h
        | succ e =>
          simp [noPrematureClose] at h
          have := ih e h
          simp [finalDepth, countCh]
          omega
      · simp [noPrematureClose, hl, hr] at h
        have := ih d h
        simp [finalDepth, countCh, hl, hr]
        omega

/-- `noPrematureClose` says exactly that no prefix closes more brackets than
were opened before it (plus the outer allowance `d`). -/
lemma noPrematureClose_iff :
    ∀ (cs : List Char) (d : ℕ),
      noPrematureClose cs d = true ↔
        ∀ p, p <+: cs → countCh ']' p ≤ countCh '[' p + d := by
  intro cs
  induction cs with
  | nil =>
    intro d
    simp only [noPrematureClose, true_iff]
    intro p hp
    rw [List.prefix_nil.mp hp]
    simp [countCh]
  | cons c cs ih =>
    intro d
    constructor
    · intro h p hp
      rcases List.prefix_cons_iff.mp hp with rfl | ⟨q, rfl, hq⟩
      · simp [countCh]
      · by_cases hl : c = '['
        · subst hl
          simp [noPrematureClose] at h
          have := (ih (d + 1)).mp h q hq
          simp [countCh]
          omega
        · by_cases hr : c = ']'
          · subst hr
            cases d with
            | zero => simp [noPrematureClose] at h
            | succ e =>
              simp [noPrematureClose] at h
              have := (ih e).mp h q hq
              simp [countCh]
              omega
          · simp [noPrematureClose, hl, hr] at h
            have := (ih d).mp h q hq
            simp [countCh, hl, hr]
            omega
    · intro h
      by_cases hl : c = '['
      · subst hl
        have hall : ∀ q, q <+: cs → countCh ']' q ≤ countCh '[' q + (d + 1) := by
          intro q hq
          have := h ('[' :: q) (List.cons_prefix_cons.mpr ⟨rfl, hq⟩)
          simp [countCh] at this
          omega
        simpa [noPrematureClose] using (ih (d + 1)).mpr hall
      · by_cases hr : c = ']'
        · subst hr
          have hd : 1 ≤ d := by
            have := h [']'] (List.cons_prefix_cons.mpr ⟨rfl, List.nil_prefix⟩)
            simpa [countCh] using this
          cases d with
          | zero => omega
          | succ e =>
            have hall : ∀ q, q <+: cs → countCh ']' q ≤ countCh '[' q + e := by
              intro q hq
              have := h (']' :: q) (List.cons_prefix_cons.mpr ⟨rfl, hq⟩)
              simp [countCh] at this
              omega
            simpa [noPrematureClose] using (ih e).mpr hall
        · have hall : ∀ q, q <+: cs → countCh ']' q ≤ countCh '[' q + d := by
            intro q hq
            have := h (c :: q) (List.cons_prefix_cons.mpr ⟨rfl, hq⟩)
            simp [countCh, hl, hr] at this
            omega
          simpa [noPrematureClose, hl, hr] using (ih d).mpr hall

/-- A 3-vector, written as in the source as a triple of coordinates. -/
abbrev Vec3 := ℝ × ℝ × ℝ

/-- Modelled from the spec: the axis-angle (Rodrigues) rotation performed by
scipy's `R.from_rotvec(angle * rotationAxis)` followed by `.apply(v)`.  scipy
is an external library, not part of this repository, so the rotation map is a
parameter: `rot rv v` is `v` rotated by the rotation vector `rv`.  Every
claim proved about the 3D interpreter holds for an arbitrary such map. -/
abbrev RotvecApply := Vec3 → Vec3 → Vec3

/-- The constructor data of the Python `LSystem3D` class. -/
structure LSystem3D where
  vars : List Char
  consts : List Char
  rules : List (Char × List Char)
  angle : ℝ
  initialString : List Char
  initialHeadDirection : Vec3
  initialLeftArmDirection : Vec3

/-- The characters of the membership test `symbol in '+-&^\\/'`. -/
def rotationSymbols : List Char := ['+', '-', '&', '^', '\\', '/']

/-- `np.cross` on 3-vectors. -/
def cross (u v : Vec3) : Vec3 :=
  (u.2.1 * v.2.2 - u.2.2 * v.2.1,
   u.2.2 * v.1 - u.1 * v.2.2,
   u.1 * v.2.1 - u.2.1 * v.1)

/-- Scalar multiple `angle * rotationAxis` of a 3-vector. -/
def smul3 (a : ℝ) (v : Vec3) : Vec3 := (a * v.1, a * v.2.1, a * v.2.2)

/-- The loop state of `LSystem3D.getSegments`: current point, head direction,
left-arm direction, bracket stack, and emitted segments. -/
structure T3State where
  pos : Vec3
  head : Vec3
  leftArm : Vec3
  stack : List (Vec3 × Vec3 × Vec3)
  segs : List (Vec3 × Vec3)

/-- One iteration of the `for symbol in finalString` loop of
`LSystem3D.getSegments`; the rotation branch picks the axis for
`+ - & ^ \\ /`, rotates head and left arm by the same rotation, `|` negates
both, and `]` on an empty stack raises `IndexError` (`none`). -/
def step3D (rot : RotvecApply) (L : LSystem3D) (st : T3State) (c : Char) :
    Option T3State :=
  let st1 : T3State :=
    if c ∈ forwardDrawSymbols then
      { st with pos := st.pos + st.head, segs := st.segs ++ [(st.pos, st.pos + st.head)] }
    else st
  if c ∈ forwardJumpSymbols then
    some { st1 with pos := st1.pos + st1.head }
  else if c ∈ rotationSymbols then
    let axis : Vec3 :=
      if c = '+' then cross st1.head st1.leftArm
      else if c = '-' then cross st1.leftArm st1.head
      else if c = '&' then st1.leftArm
      else if c = '^' then -st1.leftArm
      else if c = '\\' then st1.head
      else -st1.head
    some { st1 with head := rot (smul3 L.angle axis) st1.head,
                    leftArm := rot (smul3 L.angle axis) st1.leftArm }
  else if c = '|' then
    some { st1 with head := -st1.head, leftArm := -st1.leftArm }
  else if c = '[' then
    some { st1 with stack := (st1.pos, st1.head, st1.leftArm) :: st1.stack }
  else if c = ']' then
    match st1.stack with
    | [] => none
    | (p, h, la) :: rest =>
      some { st1 with pos := p, head := h, leftArm := la, stack := rest }
  else some st1

/-- The `for` loop of `LSystem3D.getSegments`. -/
def trace3D (rot : RotvecApply) (L : LSystem3D) : List Char → T3State → Option T3State
  | [], st => some st
  | c :: cs, st => (step3D rot L st c).bind fun st' => trace3D rot L cs st'

/-- The state `LSystem3D.getSegments` starts from: the origin and the initial
head/left-arm frame, empty stack, no segments. -/
def initState3D (L : LSystem3D) : T3State :=
  ⟨(0, 0, 0), L.initialHeadDirection, L.initialLeftArmDirection, [], []⟩

/-- `LSystem3D.getSegments(finalString)`. -/
def getSegments3D (rot : RotvecApply) (L : LSystem3D) (s : List Char) :
    Option (List (Vec3 × Vec3)) :=
  (trace3D rot L s (initState3D L)).map T3State.segs

lemma step3D_lbrack (rot : RotvecApply) (L : LSystem3D) (st : T3State) :
    step3D rot L st '[' =
      some { st with stack := (st.pos, st.head, st.leftArm) :: st.stack } := rfl

lemma step3D_rbrack_nil (rot : RotvecApply) (L : LSystem3D) (st : T3State)
    (h : st.stack = []) : step3D rot L st ']' = none := by
  obtain ⟨p, hd, la, stk, sg⟩ := st
  simp only at h
  subst h
  rfl

lemma step3D_rbrack_cons (rot : RotvecApply) (L : LSystem3D) (st : T3State)
    (p h la : Vec3) (rest : List (Vec3 × Vec3 × Vec3))
    (hstk : st.stack = (p, h, la) :: rest) :
    step3D rot L st ']' =
      some { st with pos := p, head := h, leftArm := la, stack := rest } := by
  obtain ⟨p0, h0, l0, stk, sg⟩ := st
  simp only at hstk
  subst hstk
  rfl

/-- The pos/head/leftArm update performed by `step3D` on a non-bracket
symbol; it neither touches the stack nor depends on it. -/
def plainUpd3 (rot : RotvecApply) (L : LSystem3D) (c : Char) :
    Vec3 × Vec3 × Vec3 → Vec3 × Vec3 × Vec3 := fun phl =>
  let p1 := if c ∈ forwardDrawSymbols then phl.1 + phl.2.1 else phl.1
  if c ∈ forwardJumpSymbols then (p1 + phl.2.1, phl.2.1, phl.2.2)
  else if c ∈ rotationSymbols then
    let axis : Vec3 :=
      if c = '+' then cross phl.2.1 phl.2.2
      else if c = '-' then cross phl.2.2 phl.2.1
      else if c = '&' then phl.2.2
      else if c = '^' then -phl.2.2
      else if c = '\\' then phl.2.1
      else -phl.2.1
    (p1, rot (smul3 L.angle axis) phl.2.1, rot (smul3 L.angle axis) phl.2.2)
  else if c = '|' then (p1, -phl.2.1, -phl.2.2)
  else (p1, phl.2.1, phl.2.2)

lemma step3D_plain (rot : RotvecApply) (L : LSystem3D) (st : T3State) (c : Char)
    (h1 : c ≠ '[') (h2 : c ≠ ']') :
    ∃ sg, step3D rot L st c =
      some { pos := (plainUpd3 rot L c (st.pos, st.head, st.leftArm)).1,
             head := (plainUpd3 rot L c (st.pos, st.head, st.leftArm)).2.1,
             leftArm := (plainUpd3 rot L c (st.pos, st.head, st.leftArm)).2.2,
             stack := st.stack,
             segs := st.segs ++ sg } ∧
      sg.length = (if c ∈ forwardDrawSymbols then 1 else 0) := by
  refine ⟨if c ∈ forwardDrawSymbols then [(st.pos, st.pos + st.head)] else [], ?_, ?_⟩
  · by_cases hd : c ∈ forwardDrawSymbols <;>
      by_cases hj : c ∈ forwardJumpSymbols <;>
        by_cases hrot : c ∈ rotationSymbols <;>
          by_cases hb : c = '|' <;>
            simp_all [step3D, plainUpd3, forwardDrawSymbols, forwardJumpSymbols,
              rotationSymbols]
  · by_cases hd : c ∈ forwardDrawSymbols <;> simp [hd]

lemma trace3D_nil (rot : RotvecApply) (L : LSystem3D) (st : T3State) :
    trace3D rot L [] st = some st := rfl

lemma trace3D_cons (rot : RotvecApply) (L : LSystem3D) (c : Char) (cs : List Char)
    (st : T3State) :
    trace3D rot L (c :: cs) st =
      (step3D rot L st c).bind fun st' => trace3D rot L cs st' := rfl

/-- 3D analogue of `trace2D_isSome`. -/
lemma trace3D_isSome (rot : RotvecApply) (L : LSystem3D) :
    ∀ (cs : List Char) (st : T3State),
      (trace3D rot L cs st).isSome = noPrematureClose cs st.stack.length := by
  intro cs
  induction cs with
  | nil => intro st; rfl
  | cons c cs ih =>
    intro st
    by_cases hl : c = '['
    · subst hl
      rw [trace3D_cons, step3D_lbrack]
      simpa [noPrematureClose] using ih _
    · by_cases hr : c = ']'
      · subst hr
        cases hstk : st.stack with
        | nil =>
          rw [trace3D_cons, step3D_rbrack_nil rot L st hstk]
          simp [noPrematureClose, hstk]
        | cons top rest =>
          obtain ⟨p, hd, la⟩ := top
          rw [trace3D_cons, step3D_rbrack_cons rot L st p hd la rest hstk]
          simpa [noPrematureClose, hstk] using ih _
      · obtain ⟨sg, hstep, _⟩ := step3D_plain rot L st c hl hr
        rw [trace3D_cons, hstep]
        simpa [noPrematureClose, hl, hr] using ih _

/-- 3D analogue of `trace2D_stackLen`. -/
lemma trace3D_stackLen (rot : RotvecApply) (L : LSystem3D) :
    ∀ (cs : List Char) (st out : T3State), trace3D rot L cs st = some out →
      out.stack.length = finalDepth cs st.stack.length := by
  intro cs
  induction cs with
  | nil =>
    intro st out h
    rw [trace3D_nil] at h
    cases h
    rfl
  | cons c cs ih =>
    intro st out h
    by_cases hl : c = '['
    · subst hl
      rw [trace3D_cons, step3D_lbrack, Option.some_bind] at h
      simpa [finalDepth] using ih _ _ h
    · by_cases hr : c = ']'
      · subst hr
        cases hstk : st.stack with
        | nil =>
          rw [trace3D_cons, step3D_rbrack_nil rot L st hstk] at h
          cases h
        | cons top rest =>
          obtain ⟨p, hd, la⟩ := top
          rw [trace3D_cons, step3D_rbrack_cons rot L st p hd la rest hstk,
            Option.some_bind] at h
          simpa [finalDepth, hstk] using ih _ _ h
      · obtain ⟨sg, hstep, _⟩ := step3D_plain rot L st c hl hr
        rw [trace3D_cons, hstep, Option.some_bind] at h
        simpa [finalDepth, hl, hr] using ih _ _ h

/-- 3D analogue of `trace2D_segs`. -/
lemma trace3D_segs (rot : RotvecApply) (L : LSystem3D) :
    ∀ (cs : List Char) (st out : T3State), trace3D rot L cs st = some out →
      ∃ t, out.segs = st.segs ++ t ∧ t.length = drawCount cs := by
  intro cs
  induction cs with
  | nil =>
    intro st out h
    rw [trace3D_nil] at h
    cases h
    exact ⟨[], by simp, by simp [drawCount]⟩
  | cons c cs ih =>
    intro st out h
    by_cases hl : c = '['
    · subst hl
      rw [trace3D_cons, step3D_lbrack, Option.some_bind] at h
      obtain ⟨t, ht, hlen⟩ := ih _ _ h
      exact ⟨t, ht, by simpa [drawCount, forwardDrawSymbols] using hlen⟩
    · by_cases hr : c = ']'
      · subst hr
        cases hstk : st.stack with
        | nil =>
          rw [trace3D_cons, step3D_rbrack_nil rot L st hstk] at h
          cases h
        | cons top rest =>
          obtain ⟨p, hd, la⟩ := top
          rw [trace3D_cons, step3D_rbrack_cons rot L st p hd la rest hstk,
            Option.some_bind] at h
          obtain ⟨t, ht, hlen⟩ := ih _ _ h
          exact ⟨t, ht, by simpa [drawCount, forwardDrawSymbols] using hlen⟩
      · obtain ⟨sg, hstep, hsg⟩ := step3D_plain rot L st c hl hr
        rw [trace3D_cons, hstep, Option.some_bind] at h
        obtain ⟨t, ht, hlen⟩ := ih _ _ h
        refine ⟨sg ++ t, by simp [ht, List.append_assoc], ?_⟩
        simp [drawCount, hsg, hlen, hl, hr]

/-- The `KochCurve` preset: variables `F`, rule `F -> F+F-F-F+F`, angle
`pi/2`, axiom `F`, default initial direction `(1, 0)`. -/
noncomputable def KochCurve : LSystem :=
  { vars := ['F']
    consts := ['+', '-']
    rules := [('F', "F+F-F-F+F".data)]
    angle := Real.pi / 2
    initialString := ['F']
    initialDirection := (1, 0) }

/-- The `FractalPlantF` preset: variables `X, F`,
rules `X -> F-[[X]+X]+F[+FX]-X` and `F -> FF`, angle `pi*22.5/180`,
axiom `X`, initial direction `(0, 1)`. -/
noncomputable def FractalPlantF : LSystem :=
  { vars := ['X', 'F']
    consts := ['+', '-', '[', ']']
    rules := [('X', "F-[[X]+X]+F[+FX]-X".data), ('F', "FF".data)]
    angle := Real.pi * 22.5 / 180
    initialString := ['X']
    initialDirection := (0, 1) }

/-- The `HilberCurve3D` preset (spelling as in the source), with the default
head `(0,0,1)` and left arm `(-1,0,0)`. -/
noncomputable def HilberCurve3D : LSystem3D :=
  { vars := ['A', 'B', 'C', 'D']
    consts := ['F', '+', '-', '&', '^', '\\', '/', '|']
    rules := [('A', "B-F+CFC+F-D&F^D-F+&&CFC+F+B//".data),
              ('B', "A&F^CFB^F^D^^-F-D^|F^B|FC^F^A//".data),
              ('C', "|D^|F^B-F+C^F^A&&FA&F^C+F+B^F^D//".data),
              ('D', "|CFB-F+B|FA&F^A&&FB-F+B|FC//".data)]
    angle := Real.pi / 2
    initialString := ['A']
    initialHeadDirection := (0, 0, 1)
    initialLeftArmDirection := (-1, 0, 0) }

lemma step2D_F (L : LSystem) (st : T2State) :
    step2D L st 'F' =
      some { st with pos := st.pos + st.dir,
                     segs := st.segs ++ [(st.pos, st.pos + st.dir)] } := rfl

lemma step2D_G (L : LSystem) (st : T2State) :
    step2D L st 'G' =
      some { st with pos := st.pos + st.dir,
                     segs := st.segs ++ [(st.pos, st.pos + st.dir)] } := rfl

lemma step3D_F (rot : RotvecApply) (L : LSystem3D) (st : T3State) :
    step3D rot L st 'F' =
      some { st with pos := st.pos + st.head,
                     segs := st.segs ++ [(st.pos, st.pos + st.head)] } := rfl

lemma step3D_G (rot : RotvecApply) (L : LSystem3D) (st : T3State) :
    step3D rot L st 'G' =
      some { st with pos := st.pos + st.head,
                     segs := st.segs ++ [(st.pos, st.pos + st.head)] } := rfl

lemma eq_none_of_isSome_false {α : Type} {o : Option α} (h : o.isSome = false) :
    o = none := by
  cases o
  · rfl
  · simp at h

lemma trace2D_some_of_good (L : LSystem) (s : List Char)
    (h : noPrematureClose s 0 = true) :
    ∃ out, trace2D L s (initState2D L) = some out := by
  have hs := trace2D_isSome L s (initState2D L)
  rw [show (initState2D L).stack.length = 0 from rfl, h] at hs
  exact Option.isSome_iff_exists.mp hs

lemma trace3D_some_of_good (rot : RotvecApply) (L : LSystem3D) (s : List Char)
    (h : noPrematureClose s 0 = true) :
    ∃ out, trace3D rot L s (initState3D L) = some out := by
  have hs := trace3D_isSome rot L s (initState3D L)
  rw [show (initState3D L).stack.length = 0 from rfl, h] at hs
  exact Option.isSome_iff_exists.mp hs

lemma traceOfGood (L : LSystem) (s : List Char)
    (h : noPrematureClose s 0 = true) :
    ∃ out, trace2D L s (initState2D L) = some out ∧
      out.segs.length = drawCount s := by
  obtain ⟨out, hout⟩ := trace2D_some_of_good L s h
  obtain ⟨t, ht, hlen⟩ := trace2D_segs L s _ _ hout
  have hsegs : out.segs = t := by simpa [initState2D] using ht
  exact ⟨out, hout, by rw [hsegs, hlen]⟩

/-- Claim C2: a `]` with no matching prior unmatched `[` makes both the 2D
and the 3D tracer fail — the pop on an empty stack raises and the error is
surfaced to the caller (`none`), never silently ignored. -/
theorem claimC2 (L : LSystem) (rot : RotvecApply) (L3 : LSystem3D) (s : List Char)
    (h : ∃ p, p <+: s ∧ countCh '[' p < countCh ']' p) :
    getSegments L s = none ∧ getSegments3D rot L3 s = none := by
  have hnpc : ¬ noPrematureClose s 0 = true := by
    rw [noPrematureClose_iff]
    push_neg
    obtain ⟨p, hp, hlt⟩ := h
    exact ⟨p, hp, by omega⟩
  have hfalse : noPrematureClose s 0 = false := by
    cases hn : noPrematureClose s 0
    · rfl
    · exact absurd hn hnpc
  constructor
  · have h2 : (trace2D L s (initState2D L)).isSome = false := by
      rw [trace2D_isSome]
      exact hfalse
    rw [getSegments, eq_none_of_isSome_false h2]
    rfl
  · have h3 : (trace3D rot L3 s (initState3D L3)).isSome = false := by
      rw [trace3D_isSome]
      exact hfalse
    rw [getSegments3D, eq_none_of_isSome_false h3]
    rfl

/-- Witness for C2 at the string `"F]"`, with the Koch curve grammar in 2D and
the Hilbert curve grammar in 3D. -/
theorem claimC2_witness :
    (∃ p, p <+: ['F', ']'] ∧ countCh '[' p < countCh ']' p) ∧
    getSegments KochCurve ['F', ']'] = none ∧
    getSegments3D (fun _ v => v) HilberCurve3D ['F', ']'] = none :=
  ⟨⟨['F', ']'], List.prefix_refl _, by decide⟩,
   claimC2 KochCurve (fun _ v => v) HilberCurve3D ['F', ']']
     ⟨['F', ']'], List.prefix_refl _, by decide⟩⟩

/-- Claim C9: a string whose `[`s are never all closed still traces to
completion in both interpreters — the segments gathered so far are returned,
and the saved states left on the stack are silently discarded (`getSegments`
returns only the segment list). -/
theorem claimC9 (L : LSystem) (rot : RotvecApply) (L3 : LSystem3D) (s : List Char)
    (h1 : noPrematureClose s 0 = true) (h2 : countCh ']' s < countCh '[' s) :
    (∃ out, trace2D L s (initState2D L) = some out ∧
       getSegments L s = some out.segs ∧ out.stack ≠ []) ∧
    (∃ out3, trace3D rot L3 s (initState3D L3) = some out3 ∧
       getSegments3D rot L3 s = some out3.segs ∧ out3.stack ≠ []) := by
  have hfd := finalDepth_count s 0 h1
  constructor
  · obtain ⟨out, hout⟩ := trace2D_some_of_good L s h1
    refine ⟨out, hout, by rw [getSegments, hout]; rfl, ?_⟩
    have hlen := trace2D_stackLen L s _ _ hout
    rw [show (initState2D L).stack.length = 0 from rfl] at hlen
    have hpos : 0 < out.stack.length := by
      rw [hlen]
      omega
    exact List.length_pos.mp hpos
  · obtain ⟨out3, hout3⟩ := trace3D_some_of_good rot L3 s h1
    refine ⟨out3, hout3, by rw [getSegments3D, hout3]; rfl, ?_⟩
    have hlen := trace3D_stackLen rot L3 s _ _ hout3
    rw [show (initState3D L3).stack.length = 0 from rfl] at hlen
    have hpos : 0 < out3.stack.length := by
      rw [hlen]
      omega
    exact List.length_pos.mp hpos

/-- Witness for C9 at the string `"[F"`. -/
theorem claimC9_witness :
    (noPrematureClose ['[', 'F'] 0 = true ∧ countCh ']' ['[', 'F'] < countCh '[' ['[', 'F']) ∧
    ((∃ out, trace2D KochCurve ['[', 'F'] (initState2D KochCurve) = some out ∧
        getSegments KochCurve ['[', 'F'] = some out.segs ∧ out.stack ≠ []) ∧
     (∃ out3, trace3D (fun _ v => v) HilberCurve3D ['[', 'F']
          (initState3D HilberCurve3D) = some out3 ∧
        getSegments3D (fun _ v => v) HilberCurve3D ['[', 'F'] = some out3.segs ∧
        out3.stack ≠ [])) :=
  ⟨⟨by decide, by decide⟩,
   claimC9 KochCurve (fun _ v => v) HilberCurve3D ['[', 'F'] (by decide) (by decide)⟩

lemma segmentsOfGood (L : LSystem) (s : List Char)
    (h : noPrematureClose s 0 = true) :
    ∃ segs, getSegments L s = some segs ∧ segs.length = drawCount s := by
  obtain ⟨out, hout, hlen⟩ := traceOfGood L s h
  exact ⟨out.segs, by rw [getSegments, hout]; rfl, hlen⟩

/-- Claim C6: `getSegments` returns exactly one segment per forward-draw
symbol (`F` or `G`) of its input, and in particular this holds for the fully
expanded `FractalPlantF` string at iterations 0 through 3. -/
theorem claimC6 :
    (∀ (L : LSystem) (s : List Char) (segs : List ((ℝ × ℝ) × (ℝ × ℝ))),
        getSegments L s = some segs → segs.length = drawCount s) ∧
    (∃ s0 segs, getFinalString FractalPlantF 0 = some s0 ∧
       getSegments FractalPlantF s0 = some segs ∧ segs.length = drawCount s0) ∧
    (∃ s1 segs, getFinalString FractalPlantF 1 = some s1 ∧
       getSegments FractalPlantF s1 = some segs ∧ segs.length = drawCount s1) ∧
    (∃ s2 segs, getFinalString FractalPlantF 2 = some s2 ∧
       getSegments FractalPlantF s2 = some segs ∧ segs.length = drawCount s2) ∧
    (∃ s3 segs, getFinalString FractalPlantF 3 = some s3 ∧
       getSegments FractalPlantF s3 = some segs ∧ segs.length = drawCount s3) := by
  have key : ∀ (L : LSystem) (s : List Char) (segs : List ((ℝ × ℝ) × (ℝ × ℝ))),
      getSegments L s = some segs → segs.length = drawCount s := by
    intro L s segs hsegs
    rw [getSegments] at hsegs
    cases hout : trace2D L s (initState2D L) with
    | none => rw [hout] at hsegs; cases hsegs
    | some out =>
      rw [hout] at hsegs
      have hso : out.segs = segs := by simpa using hsegs
      obtain ⟨t, ht, hlen⟩ := trace2D_segs L s _ _ hout
      have hst : out.segs = t := by simpa [initState2D] using ht
      rw [← hso, hst, hlen]
  refine ⟨key, ?_, ?_, ?_, ?_⟩
  · obtain ⟨segs, hs, hl⟩ := segmentsOfGood FractalPlantF
      ((getFinalString FractalPlantF 0).getD []) (by decide)
    exact ⟨_, segs, by decide, hs, hl⟩
  · obtain ⟨segs, hs, hl⟩ := segmentsOfGood FractalPlantF
      ((getFinalString FractalPlantF 1).getD []) (by decide)
    exact ⟨_, segs, by decide, hs, hl⟩
  · obtain ⟨segs, hs, hl⟩ := segmentsOfGood FractalPlantF
      ((getFinalString FractalPlantF 2).getD []) (by decide)
    exact ⟨_, segs, by decide, hs, hl⟩
  · obtain ⟨segs, hs, hl⟩ := segmentsOfGood FractalPlantF
      ((getFinalString FractalPlantF 3).getD []) (by decide)
    exact ⟨_, segs, by decide, hs, hl⟩

/-- Witness for the universal part of C6 at the one-symbol string `"F"`. -/
theorem claimC6_witness :
    ∃ segs, getSegments KochCurve ['F'] = some segs ∧
      segs.length = drawCount ['F'] := by
  obtain ⟨out, hout⟩ := trace2D_some_of_good KochCurve ['F'] (by decide)
  have hseg : getSegments KochCurve ['F'] = some out.segs := by
    rw [getSegments, hout]
    rfl
  exact ⟨out.segs, hseg, claimC6.1 KochCurve ['F'] out.segs hseg⟩

/-- Claim C7: the 3D interpreter's `|` symbol exactly negates the head and
left-arm directions and changes nothing else: position, stack and emitted
segments are untouched. -/
theorem claimC7 (rot : RotvecApply) (L3 : LSystem3D) (st : T3State) :
    step3D rot L3 st '|' =
      some ⟨st.pos, -st.head, -st.leftArm, st.stack, st.segs⟩ := rfl

/-- The symbols that have any effect in the 2D interpreter (forward draw,
forward jump, the two rotations, push and pop); every other symbol falls
through every branch of the loop body and is a no-op. -/
def effectiveSymbols2D : List Char := ['F', 'G', 'f', 'g', '+', '-', '[', ']']

/-- The symbols that have any effect in the 3D interpreter. -/
def effectiveSymbols3D : List Char :=
  ['F', 'G', 'f', 'g', '+', '-', '&', '^', '\\', '/', '|', '[', ']']

lemma step2D_noop (L : LSystem) (st : T2State) (c : Char)
    (h : c ∉ effectiveSymbols2D) : step2D L st c = some st := by
  simp only [effectiveSymbols2D, List.mem_cons, List.mem_singleton, not_or] at h
  obtain ⟨hF, hG, hf, hg, hp, hm, hl, hr⟩ := h
  simp [step2D, forwardDrawSymbols, forwardJumpSymbols,
    hF, hG, hf, hg, hp, hm, hl, hr]

lemma step3D_noop (rot : RotvecApply) (L : LSystem3D) (st : T3State) (c : Char)
    (h : c ∉ effectiveSymbols3D) : step3D rot L st c = some st := by
  simp only [effectiveSymbols3D, List.mem_cons, List.mem_singleton, not_or] at h
  obtain ⟨hF, hG, hf, hg, hp, hm, ha, hcar, hbsl, hsl, hbar, hl, hr⟩ := h
  simp [step3D, forwardDrawSymbols, forwardJumpSymbols, rotationSymbols,
    hF, hG, hf, hg, hp, hm, ha, hcar, hbsl, hsl, hbar, hl, hr]

/-- A prefix made of no-op symbols leaves the 2D turtle state untouched. -/
lemma trace2D_skipNoops (L : LSystem) :
    ∀ (pre rest : List Char) (st : T2State),
      (∀ x ∈ pre, x ∉ effectiveSymbols2D) →
      trace2D L (pre ++ rest) st = trace2D L rest st := by
  intro pre
  induction pre with
  | nil => intro rest st _; rfl
  | cons c pre ih =>
    intro rest st h
    rw [List.cons_append, trace2D_cons,
      step2D_noop L st c (h c (List.mem_cons_self c pre)), Option.some_bind]
    exact ih rest st fun x hx => h x (List.mem_cons_of_mem c hx)

/-- A prefix made of no-op symbols leaves the 3D turtle state untouched. -/
lemma trace3D_skipNoops (rot : RotvecApply) (L : LSystem3D) :
    ∀ (pre rest : List Char) (st : T3State),
      (∀ x ∈ pre, x ∉ effectiveSymbols3D) →
      trace3D rot L (pre ++ rest) st = trace3D rot L rest st := by
  intro pre
  induction pre with
  | nil => intro rest st _; rfl
  | cons c pre ih =>
    intro rest st h
    rw [List.cons_append, trace3D_cons,
      step3D_noop rot L st c (h c (List.mem_cons_self c pre)), Option.some_bind]
    exact ih rest st fun x hx => h x (List.mem_cons_of_mem c hx)

/-- Claim C10: both tracers start at the origin — position `(0, 0)` in 2D and
`(0, 0, 0)` in 3D — and whenever the first effective symbol of the input (the
first symbol that is not a no-op) is a forward-draw symbol, the first emitted
segment starts at the origin. -/
theorem claimC10 :
    (∀ L : LSystem, (initState2D L).pos = ((0 : ℝ), (0 : ℝ))) ∧
    (∀ L3 : LSystem3D, (initState3D L3).pos = ((0 : ℝ), (0 : ℝ), (0 : ℝ))) ∧
    (∀ (L : LSystem) (pre : List Char) (c : Char) (rest : List Char)
       (out : T2State),
       (∀ x ∈ pre, x ∉ effectiveSymbols2D) →
       c ∈ forwardDrawSymbols →
       trace2D L (pre ++ c :: rest) (initState2D L) = some out →
       ∃ e t, out.segs = (((0 : ℝ), (0 : ℝ)), e) :: t) ∧
    (∀ (rot : RotvecApply) (L3 : LSystem3D) (pre : List Char) (c : Char)
       (rest : List Char) (out : T3State),
       (∀ x ∈ pre, x ∉ effectiveSymbols3D) →
       c ∈ forwardDrawSymbols →
       trace3D rot L3 (pre ++ c :: rest) (initState3D L3) = some out →
       ∃ e t, out.segs = (((0 : ℝ), (0 : ℝ), (0 : ℝ)), e) :: t) := by
  refine ⟨fun _ => rfl, fun _ => rfl, ?_, ?_⟩
  · intro L pre c rest out hpre hc hout
    rw [trace2D_skipNoops L pre (c :: rest) _ hpre] at hout
    have hc' : c = 'F' ∨ c = 'G' := by simpa [forwardDrawSymbols] using hc
    rcases hc' with rfl | rfl
    · rw [trace2D_cons, step2D_F, Option.some_bind] at hout
      obtain ⟨t, ht, _⟩ := trace2D_segs L rest _ _ hout
      exact ⟨(0, 0) + L.initialDirection, t, by simpa [initState2D] using ht⟩
    · rw [trace2D_cons, step2D_G, Option.some_bind] at hout
      obtain ⟨t, ht, _⟩ := trace2D_segs L rest _ _ hout
      exact ⟨(0, 0) + L.initialDirection, t, by simpa [initState2D] using ht⟩
  · intro rot L3 pre c rest out hpre hc hout
    rw [trace3D_skipNoops rot L3 pre (c :: rest) _ hpre] at hout
    have hc' : c = 'F' ∨ c = 'G' := by simpa [forwardDrawSymbols] using hc
    rcases hc' with rfl | rfl
    · rw [trace3D_cons, step3D_F, Option.some_bind] at hout
      obtain ⟨t, ht, _⟩ := trace3D_segs rot L3 rest _ _ hout
      exact ⟨(0, 0, 0) + L3.initialHeadDirection, t,
        by simpa [initState3D] using ht⟩
    · rw [trace3D_cons, step3D_G, Option.some_bind] at hout
      obtain ⟨t, ht, _⟩ := trace3D_segs rot L3 rest _ _ hout
      exact ⟨(0, 0, 0) + L3.initialHeadDirection, t,
        by simpa [initState3D] using ht⟩

/-- Witness for C10 at the string `"XF"`: its first symbol `X` is a no-op in
both interpreters, its first effective symbol is the forward-draw `F`, and
the first segment of both tracers starts at the origin. -/
theorem claimC10_witness :
    ((∀ x ∈ ['X'], x ∉ effectiveSymbols2D) ∧
      (∀ x ∈ ['X'], x ∉ effectiveSymbols3D) ∧
      'F' ∈ forwardDrawSymbols) ∧
    (∃ out, trace2D KochCurve ['X', 'F'] (initState2D KochCurve) = some out ∧
       ∃ e t, out.segs = (((0 : ℝ), (0 : ℝ)), e) :: t) ∧
    (∃ out3, trace3D (fun _ v => v) HilberCurve3D ['X', 'F']
         (initState3D HilberCurve3D) = some out3 ∧
       ∃ e t, out3.segs = (((0 : ℝ), (0 : ℝ), (0 : ℝ)), e) :: t) := by
  obtain ⟨out, hout⟩ := trace2D_some_of_good KochCurve ['X', 'F'] (by decide)
  obtain ⟨out3, hout3⟩ :=
    trace3D_some_of_good (fun _ v => v) HilberCurve3D ['X', 'F'] (by decide)
  exact ⟨⟨by decide, by decide, by decide⟩,
    ⟨out, hout,
      claimC10.2.2.1 KochCurve ['X'] 'F' [] out (by decide) (by decide) hout⟩,
    ⟨out3, hout3,
      claimC10.2.2.2 (fun _ v => v) HilberCurve3D ['X'] 'F' [] out3
        (by decide) (by decide) hout3⟩⟩

/-- Simulation relation for bracket elimination at bracket depth `d`:
at depth 0 the full and the stripped turtle agree on position, direction and
rotation index and both stacks are empty; at depth `d + 1` the full turtle's
stack holds `d + 1` entries whose bottom entry is the stripped turtle's
current state, and the stripped stack is empty. -/
def stripRel : ℕ → T2State → T2State → Prop
  | 0, st, st' =>
    st.pos = st'.pos ∧ st.dir = st'.dir ∧ st.rotIdx = st'.rotIdx ∧
      st.stack = [] ∧ st'.stack = []
  | d + 1, st, st' =>
    (∃ front, st.stack = front ++ [(st'.pos, st'.dir, st'.rotIdx)] ∧
      front.length = d) ∧ st'.stack = []

/-- Tracing a string with no premature close, against tracing the same string
with every balanced bracketed substring deleted: both succeed and stay in the
simulation relation. -/
lemma trace_strip (L : LSystem) :
    ∀ (cs : List Char) (d : ℕ) (st st' : T2State),
      noPrematureClose cs d = true → stripRel d st st' →
      ∃ out out', trace2D L cs st = some out ∧
        trace2D L (stripBracketed cs d) st' = some out' ∧
        stripRel (finalDepth cs d) out out' := by
  intro cs
  induction cs with
  | nil =>
    intro d st st' _ hrel
    exact ⟨st, st', rfl, rfl, by simpa [finalDepth, stripBracketed] using hrel⟩
  | cons c cs ih =>
    intro d st st' hnpc hrel
    by_cases hl : c = '['
    · subst hl
      simp only [noPrematureClose, reduceIte] at hnpc
      have hrel' : stripRel (d + 1)
          { st with stack := (st.pos, st.dir, st.rotIdx) :: st.stack } st' := by
        cases d with
        | zero =>
          obtain ⟨hp, hd2, hk, hstk, hstk'⟩ := hrel
          exact ⟨⟨[], by simp [hstk, hp, hd2, hk], rfl⟩, hstk'⟩
        | succ e =>
          obtain ⟨⟨front, hfr, hfl⟩, hstk'⟩ := hrel
          exact ⟨⟨(st.pos, st.dir, st.rotIdx) :: front, by simp [hfr],
            by simp [hfl]⟩, hstk'⟩
      obtain ⟨out, out', hout, hout', hrelf⟩ := ih (d + 1) _ st' hnpc hrel'
      refine ⟨out, out', ?_, ?_, ?_⟩
      · rw [trace2D_cons, step2D_lbrack, Option.some_bind]
        exact hout
      · simpa [stripBracketed] using hout'
      · simpa [finalDepth] using hrelf
    · by_cases hr : c = ']'
      · subst hr
        cases d with
        | zero => simp [noPrematureClose] at hnpc
        | succ e =>
          simp [noPrematureClose] at hnpc
          obtain ⟨⟨front, hfr, hfl⟩, hstk'⟩ := hrel
          cases front with
          | nil =>
            have he : e = 0 := by simpa using hfl.symm
            subst he
            have hstep := step2D_rbrack_cons L st st'.pos st'.dir st'.rotIdx []
              (by simpa using hfr)
            have hrel0 : stripRel 0
                { st with pos := st'.pos, dir := st'.dir, rotIdx := st'.rotIdx,
                          stack := [] } st' :=
              ⟨rfl, rfl, rfl, rfl, hstk'⟩
            obtain ⟨out, out', hout, hout', hrelf⟩ := ih 0 _ st' hnpc hrel0
            refine ⟨out, out', ?_, ?_, ?_⟩
            · rw [trace2D_cons, hstep, Option.some_bind]
              exact hout
            · simpa [stripBracketed] using hout'
            · simpa [finalDepth] using hrelf
          | cons z front' =>
            obtain ⟨zp, zd, zk⟩ := z
            have hstep := step2D_rbrack_cons L st zp zd zk
              (front' ++ [(st'.pos, st'.dir, st'.rotIdx)]) (by simpa using hfr)
            have he : e = front'.length + 1 := by simpa using hfl.symm
            have hrelE : stripRel e
                { st with pos := zp, dir := zd, rotIdx := zk,
                          stack := front' ++ [(st'.pos, st'.dir, st'.rotIdx)] }
                st' := by
              rw [he]
              exact ⟨⟨front', rfl, rfl⟩, hstk'⟩
            obtain ⟨out, out', hout, hout', hrelf⟩ := ih e _ st' hnpc hrelE
            refine ⟨out, out', ?_, ?_, ?_⟩
            · rw [trace2D_cons, hstep, Option.some_bind]
              exact hout
            · simpa [stripBracketed] using hout'
            · simpa [finalDepth] using hrelf
      · simp [noPrematureClose, hl, hr] at hnpc
        obtain ⟨sg, hstep, _⟩ := step2D_plain L st c hl hr
        cases d with
        | zero =>
          obtain ⟨hp, hd2, hk, hstk, hstk'⟩ := hrel
          obtain ⟨sg', hstep', _⟩ := step2D_plain L st' c hl hr
          have htrip : ((st.pos, st.dir, st.rotIdx) :
              (ℝ × ℝ) × (ℝ × ℝ) × ℤ) = (st'.pos, st'.dir, st'.rotIdx) := by
            rw [hp, hd2, hk]
          have hrel0 : stripRel 0
              { pos := (plainUpd L c (st.pos, st.dir, st.rotIdx)).1,
                dir := (plainUpd L c (st.pos, st.dir, st.rotIdx)).2.1,
                rotIdx := (plainUpd L c (st.pos, st.dir, st.rotIdx)).2.2,
                stack := st.stack, segs := st.segs ++ sg }
              { pos := (plainUpd L c (st'.pos, st'.dir, st'.rotIdx)).1,
                dir := (plainUpd L c (st'.pos, st'.dir, st'.rotIdx)).2.1,
                rotIdx := (plainUpd L c (st'.pos, st'.dir, st'.rotIdx)).2.2,
                stack := st'.stack, segs := st'.segs ++ sg' } := by
            refine ⟨?_, ?_, ?_, ?_, ?_⟩ <;> simp [htrip, hstk, hstk']
          obtain ⟨out, out', hout, hout', hrelf⟩ := ih 0 _ _ hnpc hrel0
          refine ⟨out, out', ?_, ?_, ?_⟩
          · rw [trace2D_cons, hstep, Option.some_bind]
            exact hout
          · rw [show stripBracketed (c :: cs) 0 = c :: stripBracketed cs 0 by
              simp [stripBracketed, hl, hr]]
            rw [trace2D_cons, hstep', Option.some_bind]
            exact hout'
          · simpa [finalDepth, hl, hr] using hrelf
        | succ e =>
          obtain ⟨⟨front, hfr, hfl⟩, hstk'⟩ := hrel
          have hrelE : stripRel (e + 1)
              { pos := (plainUpd L c (st.pos, st.dir, st.rotIdx)).1,
                dir := (plainUpd L c (st.pos, st.dir, st.rotIdx)).2.1,
                rotIdx := (plainUpd L c (st.pos, st.dir, st.rotIdx)).2.2,
                stack := st.stack, segs := st.segs ++ sg } st' :=
            ⟨⟨front, hfr, hfl⟩, hstk'⟩
          obtain ⟨out, out', hout, hout', hrelf⟩ := ih (e + 1) _ st' hnpc hrelE
          refine ⟨out, out', ?_, ?_, ?_⟩
          · rw [trace2D_cons, hstep, Option.some_bind]
            exact hout
          · simpa [stripBracketed, hl, hr] using hout'
          · simpa [finalDepth, hl, hr] using hrelf

/-- Claim C5: on a well-bracketed string every `]` restores the state saved
at its matching `[`, so the 2D turtle's final position, direction and
rotation index equal those obtained by deleting every balanced bracketed
substring and retracing (and both runs end with an empty stack). -/
theorem claimC5 (L : LSystem) (cs : List Char)
    (h1 : noPrematureClose cs 0 = true)
    (h2 : countCh '[' cs = countCh ']' cs) :
    ∃ out out', trace2D L cs (initState2D L) = some out ∧
      trace2D L (stripBracketed cs 0) (initState2D L) = some out' ∧
      out.pos = out'.pos ∧ out.dir = out'.dir ∧ out.rotIdx = out'.rotIdx ∧
      out.stack = [] ∧ out'.stack = [] := by
  have hrel : stripRel 0 (initState2D L) (initState2D L) :=
    ⟨rfl, rfl, rfl, rfl, rfl⟩
  obtain ⟨out, out', hout, hout', hrelf⟩ := trace_strip L cs 0 _ _ h1 hrel
  have hfd : finalDepth cs 0 = 0 := by
    have := finalDepth_count cs 0 h1
    omega
  rw [hfd] at hrelf
  obtain ⟨hp, hd2, hk, hstk, hstk'⟩ := hrelf
  exact ⟨out, out', hout, hout', hp, hd2, hk, hstk, hstk'⟩

/-- Witness for C5 at the well-bracketed string `"F[+F]F"`. -/
theorem claimC5_witness :
    (noPrematureClose "F[+F]F".data 0 = true ∧
      countCh '[' "F[+F]F".data = countCh ']' "F[+F]F".data) ∧
    (∃ out out', trace2D KochCurve "F[+F]F".data (initState2D KochCurve) = some out ∧
      trace2D KochCurve (stripBracketed "F[+F]F".data 0)
          (initState2D KochCurve) = some out' ∧
      out.pos = out'.pos ∧ out.dir = out'.dir ∧ out.rotIdx = out'.rotIdx ∧
      out.stack = [] ∧ out'.stack = []) :=
  ⟨⟨by decide, by decide⟩,
   claimC5 KochCurve "F[+F]F".data (by decide) (by decide)⟩

lemma step2D_plus (L : LSystem) (st : T2State) :
    step2D L st '+' =
      some { st with rotIdx := st.rotIdx + 1,
                     dir := getKthRotatedUnitVector L (st.rotIdx + 1) } := rfl

lemma step2D_minus (L : LSystem) (st : T2State) :
    step2D L st '-' =
      some { st with rotIdx := st.rotIdx - 1,
                     dir := getKthRotatedUnitVector L (st.rotIdx - 1) } := rfl

lemma koch_init : initState2D KochCurve =
    ⟨((0 : ℝ), (0 : ℝ)), ((1 : ℝ), (0 : ℝ)), 0, [], []⟩ := rfl

lemma koch_dir_zero : getKthRotatedUnitVector KochCurve 0 = ((1 : ℝ), (0 : ℝ)) := rfl

lemma koch_dir_one : getKthRotatedUnitVector KochCurve 1 = ((0 : ℝ), (1 : ℝ)) := by
  simp only [getKthRotatedUnitVector, KochCurve]
  norm_num [Prod.ext_iff, Real.cos_pi_div_two, Real.sin_pi_div_two]

lemma koch_dir_neg_one :
    getKthRotatedUnitVector KochCurve (-1) = ((0 : ℝ), (-1 : ℝ)) := by
  simp only [getKthRotatedUnitVector, KochCurve]
  norm_num [Prod.ext_iff, mul_neg_one, Real.cos_neg, Real.sin_neg,
    Real.cos_pi_div_two, Real.sin_pi_div_two]

/-- The final turtle state of the Koch-curve trace of `"F+F-F-F+F"`:
position `(3, 0)`, heading restored to `(1, 0)`, rotation index back to 0,
empty stack, and the 5 unit segments in drawing order. -/
noncomputable def c3Final : T2State :=
  ⟨((3 : ℝ), (0 : ℝ)), ((1 : ℝ), (0 : ℝ)), 0, [],
   [(((0 : ℝ), (0 : ℝ)), ((1 : ℝ), (0 : ℝ))),
    (((1 : ℝ), (0 : ℝ)), ((1 : ℝ), (1 : ℝ))),
    (((1 : ℝ), (1 : ℝ)), ((2 : ℝ), (1 : ℝ))),
    (((2 : ℝ), (1 : ℝ)), ((2 : ℝ), (0 : ℝ))),
    (((2 : ℝ), (0 : ℝ)), ((3 : ℝ), (0 : ℝ)))]⟩

lemma c3_trace :
    trace2D KochCurve "F+F-F-F+F".data (initState2D KochCurve) = some c3Final := by
  show trace2D KochCurve ['F', '+', 'F', '-', 'F', '-', 'F', '+', 'F']
    (initState2D KochCurve) = some c3Final
  rw [koch_init]
  simp only [trace2D_cons, trace2D_nil, step2D_F, step2D_plus, step2D_minus,
    Option.some_bind]
  norm_num [c3Final, koch_dir_zero, koch_dir_one, koch_dir_neg_one,
    Prod.mk_add_mk, Prod.ext_iff, T2State.mk.injEq]

/-- Claim C3 (amended): one Koch-curve expansion yields exactly
`"F+F-F-F+F"`, and tracing it from heading `(1, 0)` yields exactly 5
segments; the net displacement of the final turtle position from the start
is `(3, 0)` (the five unit moves point east, north, east, south, east), not
`(1, 1)`. -/
theorem claimC3 :
    getFinalString KochCurve 1 = some "F+F-F-F+F".data ∧
    trace2D KochCurve "F+F-F-F+F".data (initState2D KochCurve) = some c3Final ∧
    getSegments KochCurve "F+F-F-F+F".data = some c3Final.segs ∧
    c3Final.segs.length = 5 ∧
    c3Final.pos = ((3 : ℝ), (0 : ℝ)) :=
  ⟨by decide, c3_trace, by rw [getSegments, c3_trace]; rfl, rfl, rfl⟩

/-- Claim C3, counterexample: the Koch-curve trace of `"F+F-F-F+F"` ends at
`(3, 0)`, so its net displacement is not `(1, 1)` as the claim states. -/
theorem claimC3_counterexample :
    trace2D KochCurve "F+F-F-F+F".data (initState2D KochCurve) = some c3Final ∧
    c3Final.pos ≠ ((1 : ℝ), (1 : ℝ)) :=
  ⟨c3_trace, by norm_num [c3Final, Prod.ext_iff]⟩

end LSysVerify
